import Mathlib

/-!
Verification development for the pinboardzine article pipeline
(pinboardzine.py). The Python source is shallowly embedded: Python strings
become Lean String (a missing field, Python None, is modeled as the empty
string, matching how the source only ever tests these fields for
truthiness), network calls become explicit oracle functions passed as
arguments, the wall clock is passed explicitly, and XML element trees built
with xml.etree.ElementTree become values of an inductive tree type.
-/

namespace Pinboardzine

/-- Python truthiness-based choice on strings, modeling the expression
a or b, where a missing field (None) is modeled as the empty string. -/
def pyOr (a b : String) : String := if a = "" then b else a

/-- One step of the scan behind the re.sub call that collapses each maximal
run of characters matching the character class of non-word characters and
underscores (so: everything that is not an ASCII alphanumeric) to a single
dash. The Boolean records whether the scan is currently inside such a run. -/
def sanitizeGo : Bool → List Char → List Char
  | _, [] => []
  | inRun, c :: rest =>
    if c.isAlphanum then c :: sanitizeGo false rest
    else if inRun then sanitizeGo true rest
    else '-' :: sanitizeGo true rest

/-- The filename-derivation substitution used both for article filenames and
image filenames in pinboardzine.py: every maximal run of non-alphanumeric
characters is replaced by a single dash. Unicode word characters are not
modeled; the embedding is over ASCII alphanumerics. -/
def sanitize (s : String) : String := ⟨sanitizeGo false s.data⟩

/-- The longest prefix of a character list ending at its last slash;
empty when there is no slash. Helper for the urljoin model. -/
def upToLastSlash (l : List Char) : List Char :=
  (l.reverse.dropWhile (fun c => c != '/')).reverse

/-- Whether the string s starts with the string p, computed on the
underlying character lists. -/
def startsWithStr (p s : String) : Bool := p.data.isPrefixOf s.data

/-- Model of urllib.parse.urljoin for the reference shapes the properties
below exercise: a reference that already carries an http or https scheme is
returned unchanged (the only case any claim depends on); any other
reference is resolved against the base URL by replacing everything after
the base's last slash. -/
def urljoin (base ref : String) : String :=
  if startsWithStr "http://" ref || startsWithStr "https://" ref then ref
  else ⟨upToLastSlash base.data⟩ ++ ref

/-- Outcome of the HTTP GET of an image URL: failure models either a network
error or a response whose raise_for_status raises (non-2xx status); success
carries the declared content-type header value. -/
inductive FetchResult where
  | failure
  | success (contentType : String)
deriving Repr, DecidableEq

/-- What the regex replacement callback download_image returns for one
matched image source attribute: either the original matched text is kept
(the code returns match.group(0)) or the attribute is rewritten to point at
a local filename (the code returns the src prefix, the quote and the
filename). Only the url group varies across the claims, so the surrounding
src= text and quote character are abstracted away. -/
inductive RefResult where
  | unchanged (ref : String)
  | rewritten (filename : String)
deriving Repr, DecidableEq

/-- An image record appended to the article's images list by
download_image: local filename plus the declared content type. -/
structure Image where
  filename : String
  type : String
deriving Repr, DecidableEq

/-- The state threaded through the regex substitution over one article
body: the per-article visited set downloaded_images (keyed by absolute
URL), the article's accumulated images list, and a log of the URLs
actually passed to req.get, used to state how often a URL is fetched. -/
structure ResolveState where
  downloadedImages : List String
  images : List Image
  fetchLog : List String
deriving Repr, DecidableEq

/-- The replacement callback download_image from pinboardzine.py
(lines 320-356), for one matched reference. The absolute URL is resolved
with urljoin against the article URL and the base filename is derived by
the sanitizing substitution. A URL already in the visited set is rewritten
to that base filename without fetching (note: the source recomputes the
filename here, without any content-type extension). Otherwise the URL is
added to the visited set and fetched; on failure the original match is
returned unchanged and no image is registered; on success an extension is
chosen from the declared content type (image/jpg and image/jpeg map to
.jpeg, image/gif to .gif, image/png to .png, anything else adds no
extension), the image is registered, and the reference is rewritten. -/
def downloadImage (fetch : String → FetchResult) (url : String)
    (st : ResolveState) (ref : String) : ResolveState × RefResult :=
  let imgUrl := urljoin url ref
  let imgFilename := sanitize imgUrl
  if st.downloadedImages.contains imgUrl then
    (st, RefResult.rewritten imgFilename)
  else
    let st1 : ResolveState :=
      { st with downloadedImages := st.downloadedImages ++ [imgUrl],
                fetchLog := st.fetchLog ++ [imgUrl] }
    match fetch imgUrl with
    | FetchResult.failure => (st1, RefResult.unchanged ref)
    | FetchResult.success contentType =>
      let extended :=
        if contentType = "image/jpg" ∨ contentType = "image/jpeg" then
          imgFilename ++ ".jpeg"
        else if contentType = "image/gif" then imgFilename ++ ".gif"
        else if contentType = "image/png" then imgFilename ++ ".png"
        else imgFilename
      ({ st1 with images := st1.images ++ [⟨extended, contentType⟩] },
       RefResult.rewritten extended)

/-- The regex substitution SRC_ATTR_RE.sub(download_image, content) over
one article body, modeled as the left-to-right traversal of the list of
matched url groups, threading the resolver state and collecting each
match's replacement outcome. -/
def resolveRefs (fetch : String → FetchResult) (url : String) :
    ResolveState → List String → ResolveState × List RefResult
  | st, [] => (st, [])
  | st, r :: rs =>
    let p := downloadImage fetch url st r
    let q := resolveRefs fetch url p.1 rs
    (q.1, p.2 :: q.2)

/-- A bookmark from the Pinboard feed, with the field names the feed uses:
u is the URL, d the user's description, n the user's note. -/
structure Bookmark where
  u : String
  d : String
  n : String
deriving Repr, DecidableEq

/-- The Readability parser response fields the pipeline reads. The body
content is represented by the list of image source attribute url groups
that SRC_ATTR_RE matches in it, in order of occurrence, which is the only
aspect of the body the pipeline inspects. Missing fields (null) are
modeled as the empty string. -/
structure Readable where
  title : String
  author : String
  domain : String
  dek : String
  excerpt : String
  refs : List String
deriving Repr, DecidableEq

/-- The title assignment in zine (pinboardzine.py lines 312-314):
the extractor title, or else the bookmark description, or else the string
formed from the extractor domain followed by a space and the word
article. -/
def zineArticleTitle (readableTitle bookmarkDescription domain : String) :
    String :=
  let t := pyOr readableTitle bookmarkDescription
  if t = "" then domain ++ " article" else t

/-- The description assignment in zine (pinboardzine.py line 315):
the bookmark note, or else the extractor dek, or else the extractor
excerpt. -/
def zineArticleDescription (note dek excerpt : String) : String :=
  pyOr note (pyOr dek excerpt)

/-- The article filename derivation in zine (pinboardzine.py line 362):
the sanitized bookmark URL with the fixed .html extension. -/
def zineFilename (url : String) : String := sanitize url ++ ".html"

/-- The normalized article record accumulated by zine and consumed by the
three document builders. -/
structure Article where
  url : String
  title : String
  description : String
  author : String
  filename : String
  images : List Image
deriving Repr, DecidableEq

/-- Processing of one successfully fetched and extracted bookmark inside
the zine loop: normalize title, description and author, resolve the body's
image references from a fresh per-article resolver state, and derive the
article filename from the bookmark URL. -/
def processBookmark (imgFetch : String → FetchResult) (b : Bookmark)
    (r : Readable) : Article :=
  let res := resolveRefs imgFetch b.u ⟨[], [], []⟩ r.refs
  { url := b.u,
    title := zineArticleTitle r.title b.d r.domain,
    description := zineArticleDescription b.n r.dek r.excerpt,
    author := r.author,
    filename := zineFilename b.u,
    images := res.1.images }

/-- The per-bookmark loop of zine (pinboardzine.py lines 294-367) over the
oldest-first bookmark list: a bookmark whose URL is in the caller-supplied
skip set is dropped without any network activity; fetchArticle models the
Readability request together with raise_for_status, returning none exactly
when that request fails (the except branch that logs and continues); a
successful bookmark is processed and appended to the saved list. The
function is total: no per-bookmark outcome aborts the traversal. -/
def zineLoop (fetchArticle : String → Option Readable)
    (imgFetch : String → FetchResult) (skip : List String) :
    List Bookmark → List Article
  | [] => []
  | b :: rest =>
    if skip.contains b.u then zineLoop fetchArticle imgFetch skip rest
    else
      match fetchArticle b.u with
      | none => zineLoop fetchArticle imgFetch skip rest
      | some r =>
        processBookmark imgFetch b r :: zineLoop fetchArticle imgFetch skip rest

/-- An xml.etree.ElementTree element: tag, attributes in insertion order,
the text before the first child, and the child elements. Tags are written
with their serialized prefixes (dc:date, mbp:meta); namespace declarations
and tail text are not modeled, as no property below depends on them.
ElementTree.tostring is a deterministic pure function of this tree, so
byte-identity of serialized documents coincides with equality of trees,
and trees differing in a text or attribute value serialize differently. -/
inductive XmlNode where
  | elem (tag : String) (attrs : List (String × String)) (text : String)
      (children : List XmlNode)
deriving Repr

instance : Inhabited XmlNode := ⟨XmlNode.elem "" [] "" []⟩

/-- The element's tag. -/
def XmlNode.tag : XmlNode → String
  | .elem t _ _ _ => t

/-- The element's attribute list. -/
def XmlNode.attrs : XmlNode → List (String × String)
  | .elem _ a _ _ => a

/-- The element's text. -/
def XmlNode.text : XmlNode → String
  | .elem _ _ s _ => s

/-- The element's children. -/
def XmlNode.children : XmlNode → List XmlNode
  | .elem _ _ _ c => c

/-- The i-th child element, or the default element out of range. -/
def XmlNode.child (n : XmlNode) (i : Nat) : XmlNode :=
  n.children.getD i default

/-- An attribute's value, or the empty string when absent. -/
def XmlNode.attrD (n : XmlNode) (name : String) : String :=
  (n.attrs.lookup name).getD ""

/-- A mobipocket-namespace meta element carrying an article's description
or author annotation in the navigation document. -/
def mbpMeta (name value : String) : XmlNode :=
  .elem "mbp:meta" [("name", name)] value []

/-- The nav_point helper inside contents_ncx_for_articles: a navPoint
element with id nav-order, the play order, the given class, a navLabel
holding the title, a content element targeting src, and any extra child
elements appended after it. -/
def navPointNode (order : Nat) (ttl src kind : String)
    (extra : List XmlNode) : XmlNode :=
  .elem "navPoint"
    [("id", "nav-" ++ toString order), ("playOrder", toString order),
     ("class", kind)]
    ""
    ([XmlNode.elem "navLabel" [] "" [.elem "text" [] ttl []],
      XmlNode.elem "content" [("src", src)] "" []] ++ extra)

/-- One article entry of the navigation map, at the given play order. The
source appends the order-3 anchor to the filename exactly when the play
order is 3, and appends description and author annotations only when those
fields are nonempty (Python truthiness). -/
def articleNavPoint (order : Nat) (a : Article) : XmlNode :=
  let filename := if order = 3 then a.filename ++ "#top" else a.filename
  navPointNode order a.title filename "article"
    ((if a.description = "" then [] else [mbpMeta "description" a.description])
      ++ (if a.author = "" then [] else [mbpMeta "author" a.author]))

/-- The article entries of the navigation map, one per article in input
order, numbered consecutively from the given starting play order (the
source starts at 3). -/
def articleNavPoints (order : Nat) : List Article → List XmlNode
  | [] => []
  | a :: rest => articleNavPoint order a :: articleNavPoints (order + 1) rest

/-- contents_ncx_for_articles (pinboardzine.py lines 89-137): the
navigation document. The source reads articles[0] before anything else,
which raises IndexError on an empty list; that crash is modeled as none.
Otherwise: the head carries the dtb:uid meta (content attribute set by the
code after the name attribute from the template) and the fixed meta
elements from the template; the docTitle holds the title; and the navMap
holds the order-1 Table of Contents navPoint targeting the first article's
filename, which nests the order-2 Unread section navPoint targeting the
first article's filename with the top anchor, which nests the article
entries numbered from 3. -/
def contents_ncx_for_articles (articles : List Article) (uid title : String) :
    Option XmlNode :=
  match articles with
  | [] => none
  | first :: rest =>
    some (.elem "ncx" [("version", "2005-1"), ("xml:lang", "en")] ""
      [XmlNode.elem "head" [] ""
        [XmlNode.elem "meta" [("name", "dtb:uid"), ("content", uid)] "" [],
         XmlNode.elem "meta" [("content", "3"), ("name", "dtb:depth")] "" [],
         XmlNode.elem "meta" [("content", "0"), ("name", "dtb:totalPageCount")] "" [],
         XmlNode.elem "meta" [("content", "0"), ("name", "dtb:maxPageNumber")] "" []],
       XmlNode.elem "docTitle" [] "" [.elem "text" [] title []],
       XmlNode.elem "navMap" [] ""
        [navPointNode 1 "Table of Contents" first.filename "periodical"
          [navPointNode 2 "Unread" (first.filename ++ "#top") "section"
            (articleNavPoints 3 (first :: rest))]]])

/-- The manifest item for one article document: href and id are both the
article filename (the source comments that it cheats by using the filename
as the id), with the xhtml media type. -/
def articleItemNode (a : Article) : XmlNode :=
  .elem "item"
    [("href", a.filename), ("id", a.filename),
     ("media-type", "application/xhtml+xml")]
    "" []

/-- The spine itemref for one article document. -/
def spineItemNode (a : Article) : XmlNode :=
  .elem "itemref" [("idref", a.filename)] "" []

/-- The guide reference for one article document. -/
def guideRefNode (a : Article) : XmlNode :=
  .elem "reference"
    [("title", a.title), ("href", a.filename), ("type", "text")] "" []

/-- The manifest item for one image. -/
def imageItemNode (i : Image) : XmlNode :=
  .elem "item"
    [("href", i.filename), ("id", i.filename), ("media-type", i.type)] "" []

/-- The per-article inner loop of content_opf_for_articles over the
article's images: an image whose filename is already in the seen set is
skipped; otherwise its filename is added to the seen set and its manifest
item is emitted. Returns the grown seen set and the emitted items. -/
def opfImageItems (seen : List String) : List Image → List String × List XmlNode
  | [] => (seen, [])
  | i :: rest =>
    if seen.contains i.filename then opfImageItems seen rest
    else
      let p := opfImageItems (seen ++ [i.filename]) rest
      (p.1, imageItemNode i :: p.2)

/-- The main loop of content_opf_for_articles: per article, in order, a
guide reference, an article manifest item, a spine itemref, and the
article's not-yet-seen image manifest items, with the seen-image-id set
threaded through the whole article list. Returns the final seen set, the
manifest items, the spine itemrefs and the guide references. -/
def opfArticleNodes (seen : List String) :
    List Article → List String × List XmlNode × List XmlNode × List XmlNode
  | [] => (seen, [], [], [])
  | a :: rest =>
    let p := opfImageItems seen a.images
    let q := opfArticleNodes p.1 rest
    (q.1, articleItemNode a :: (p.2 ++ q.2.1),
     spineItemNode a :: q.2.2.1, guideRefNode a :: q.2.2.2)

/-- content_opf_for_articles (pinboardzine.py lines 140-189): the package
manifest document. The call datetime.utcnow().isoformat() is passed
explicitly as the now argument; everything else is determined by the
articles, uid and title. The manifest starts with the template's ncx and
contents items, the spine's toc attribute and the guide's Beginning
reference come from the template, and the per-article nodes follow in
order with image items deduplicated by filename across all articles. -/
def content_opf_for_articles (articles : List Article)
    (uid title now : String) : XmlNode :=
  let p := opfArticleNodes [] articles
  .elem "package" [("version", "2.0"), ("unique-identifier", "uid")] ""
    [XmlNode.elem "metadata" [] ""
      [XmlNode.elem "dc-metadata" [] ""
        [XmlNode.elem "dc:title" [] title [],
         XmlNode.elem "dc:language" [] "en" [],
         XmlNode.elem "dc:identifier" [("id", "uid")] uid [],
         XmlNode.elem "dc:creator" [] "pinboard-zine" [],
         XmlNode.elem "dc:source" [] "pinboard-zine" [],
         XmlNode.elem "dc:date" [("opf:event", "publication")] now []],
       XmlNode.elem "x-metadata" [] ""
        [XmlNode.elem "output"
          [("content-type", "application/x-mobipocket-subscription-magazine"),
           ("encoding", "utf-8")] "" []]],
     XmlNode.elem "manifest" [] ""
      ([XmlNode.elem "item"
          [("href", "contents.ncx"), ("id", "ncx"),
           ("media-type", "application/x-dtbncx+xml")] "" [],
        XmlNode.elem "item"
          [("href", "contents.html"), ("media-type", "application/xhtml+xml"),
           ("id", "contents")] "" []] ++ p.2.1),
     XmlNode.elem "spine" [("toc", "ncx")] "" p.2.2.1,
     XmlNode.elem "tours" [] "" [],
     XmlNode.elem "guide" [] ""
      (XmlNode.elem "reference"
        [("title", "Beginning"), ("type", "start"), ("href", "contents.html")]
        "" [] :: p.2.2.2)]

set_option linter.unusedVariables false in
/-- contents_html_for_articles (pinboardzine.py lines 192-211): the
human-readable table of contents, plain string templating; the uid
parameter is accepted and unused, as in the source. One list item per
article carrying its filename link, title and description. -/
def contents_html_for_articles (articles : List Article)
    (uid title : String) : String :=
  let items := String.join (articles.map (fun a =>
    "\n        <li><a href=\"" ++ a.filename ++ "\">" ++ a.title ++ "</a> "
      ++ a.description ++ "</li>\n    "))
  "\n        <html><head>\n            <meta charset=\"utf-8\">\n            <title>"
    ++ title
    ++ "</title>\n        </head><body>\n            <h1>Table of Contents</h1>\n            <ul>\n            "
    ++ items
    ++ "\n            </ul>\n        </body></html>\n    "

mutual

/-- The element tree with the text of every dc:date element blanked,
leaving everything else untouched. Used to state exactly which part of the
package manifest depends on the generation time. -/
def eraseDate : XmlNode → XmlNode
  | .elem tag attrs text children =>
    .elem tag attrs (if tag = "dc:date" then "" else text)
      (eraseDateList children)

/-- eraseDate mapped over a child list. -/
def eraseDateList : List XmlNode → List XmlNode
  | [] => []
  | c :: cs => eraseDate c :: eraseDateList cs

end

/-- The text of the dc:date element of a package manifest document, read
off at its fixed position in the template. -/
def opfDateText (d : XmlNode) : String :=
  (((d.child 0).child 0).child 5).text

/-- The filenames of a list of images, in order. -/
def imageNames : List Image → List String
  | [] => []
  | i :: rest => i.filename :: imageNames rest

/-- The image filenames referenced across a list of articles, in order:
the concatenation of each article's image filenames. -/
def articleImageNames : List Article → List String
  | [] => []
  | a :: rest => imageNames a.images ++ articleImageNames rest

/-- The play-order-1 navPoint of a navigation document: the first child of
its navMap element (the navMap is the third child of the ncx root). -/
def ncxOrder1 (doc : XmlNode) : XmlNode := (doc.child 2).child 0

/-- The play-order-2 section navPoint: nested as the third child of the
order-1 navPoint, after its navLabel and content elements. -/
def ncxOrder2 (doc : XmlNode) : XmlNode := (ncxOrder1 doc).child 2

/-- The label text of a navPoint: the text of the text element inside its
navLabel element. -/
def navLabelText (p : XmlNode) : String := ((p.child 0).child 0).text

/-- The target of a navPoint: the src attribute of its content element. -/
def navContentSrc (p : XmlNode) : String := (p.child 1).attrD "src"

/-- A string with the article suffix appended is never empty; used for the
final title fallback. -/
theorem append_article_ne_empty (s : String) : s ++ " article" ≠ "" := by
  intro h
  have h2 : (s ++ " article").length = ("" : String).length :=
    congrArg String.length h
  rw [String.length_append, show (" article" : String).length = 8 from rfl,
      show ("" : String).length = 0 from rfl] at h2
  omega

/-- C1: the claim states that when an article body references the same
absolute image URL twice, the resolver fetches it once and rewrites every
occurrence to the identical local filename assigned at the first
occurrence. On the code, the fetch indeed happens exactly once, but the
filename extension chosen from the content type is appended only inside
the first-occurrence branch of download_image; the duplicate branch
recomputes the filename from the URL without any extension, so the second
occurrence is rewritten to a different filename than the first (and one
under which no file was saved). This theorem evaluates the embedded code
at such an input. -/
theorem dedup_fetches_once_but_second_filename_differs :
    (resolveRefs (fun _ => FetchResult.success "image/jpeg")
        "http://example.com/post" ⟨[], [], []⟩
        ["http://example.com/a.jpg", "http://example.com/a.jpg"]).1.fetchLog
      = ["http://example.com/a.jpg"] ∧
    (resolveRefs (fun _ => FetchResult.success "image/jpeg")
        "http://example.com/post" ⟨[], [], []⟩
        ["http://example.com/a.jpg", "http://example.com/a.jpg"]).2
      = [RefResult.rewritten "http-example-com-a-jpg.jpeg",
         RefResult.rewritten "http-example-com-a-jpg"] ∧
    ("http-example-com-a-jpg.jpeg" : String) ≠ "http-example-com-a-jpg" := by
  decide

/-- C2: the claim states that when an image fetch fails, every occurrence
of that URL in the body is left unmodified, no image is registered, and
processing continues. On the code, the failed URL is added to the visited
set before the fetch, so while the first occurrence is indeed returned
unchanged and no image is registered, every later occurrence of the same
URL takes the already-visited branch and is rewritten to the derived
(unextended) filename even though nothing was downloaded. Processing of
other references does continue: a later distinct image still resolves and
registers. This theorem evaluates the embedded code at such an input. -/
theorem failed_fetch_second_occurrence_is_rewritten :
    (resolveRefs
        (fun u => if u = "http://example.com/a.jpg" then FetchResult.failure
                  else FetchResult.success "image/png")
        "http://example.com/post" ⟨[], [], []⟩
        ["http://example.com/a.jpg", "http://example.com/a.jpg",
         "http://example.com/b.png"]).2
      = [RefResult.unchanged "http://example.com/a.jpg",
         RefResult.rewritten "http-example-com-a-jpg",
         RefResult.rewritten "http-example-com-b-png.png"] ∧
    (resolveRefs
        (fun u => if u = "http://example.com/a.jpg" then FetchResult.failure
                  else FetchResult.success "image/png")
        "http://example.com/post" ⟨[], [], []⟩
        ["http://example.com/a.jpg", "http://example.com/a.jpg",
         "http://example.com/b.png"]).1.images
      = [⟨"http-example-com-b-png.png", "image/png"⟩] := by
  decide

/-- C5: the claim states that on an empty article list all three builder
outputs are still produced without crashing. The source of
contents_ncx_for_articles reads articles[0] before building anything,
which raises an uncaught IndexError on the empty list; the embedding
models that crash as none. The other two builders do return documents on
the empty list, but the navigation builder does not. -/
theorem contents_ncx_crashes_on_empty_list :
    ∀ uid title, contents_ncx_for_articles [] uid title = none :=
  fun _ _ => rfl

/-- C9: the claim states that article filenames are derived
deterministically from the bookmark URL and that duplicate bookmark URLs
must not corrupt the manifest with duplicate article-document entries. The
derivation is indeed deterministic (both copies of the bookmark get the
same filename), but content_opf_for_articles only deduplicates image
items: processing the same bookmark URL twice yields two manifest item
elements with the identical href and id, which the source's own comment
describes as fatal to kindlegen. This theorem evaluates the embedded code
at such an input. -/
theorem duplicate_bookmark_url_duplicates_manifest_items :
    (processBookmark (fun _ => FetchResult.failure)
        ⟨"https://example.com/a", "desc", ""⟩
        ⟨"Title", "", "example.com", "", "", []⟩).filename
      = "https-example-com-a.html" ∧
    ((content_opf_for_articles
        [processBookmark (fun _ => FetchResult.failure)
          ⟨"https://example.com/a", "desc", ""⟩
          ⟨"Title", "", "example.com", "", "", []⟩,
         processBookmark (fun _ => FetchResult.failure)
          ⟨"https://example.com/a", "desc", ""⟩
          ⟨"Title", "", "example.com", "", "", []⟩]
        "uid" "ttl" "now").child 1).children.countP
        (fun x => x.attrD "href" == "https-example-com-a.html")
      = 2 := by
  decide

/-- C10: for a successfully fetched image whose response declares the
nonstandard content type image/jpg, download_image appends the .jpeg
extension to the derived filename, registers the image under that
filename, and rewrites the reference exactly as it would for
image/jpeg. -/
theorem image_jpg_gets_jpeg_extension (base ref : String) (st : ResolveState)
    (h : st.downloadedImages.contains (urljoin base ref) = false) :
    (downloadImage (fun _ => FetchResult.success "image/jpg") base st ref).2
      = RefResult.rewritten (sanitize (urljoin base ref) ++ ".jpeg") ∧
    (downloadImage (fun _ => FetchResult.success "image/jpg") base st ref).1.images
      = st.images ++ [⟨sanitize (urljoin base ref) ++ ".jpeg", "image/jpg"⟩] ∧
    (downloadImage (fun _ => FetchResult.success "image/jpg") base st ref).2
      = (downloadImage (fun _ => FetchResult.success "image/jpeg") base st ref).2 := by
  have h2 : urljoin base ref ∉ st.downloadedImages := by simpa using h
  refine ⟨?_, ?_, ?_⟩ <;> simp [downloadImage, h2]

/-- Witness for the image/jpg extension theorem at a concrete fresh
state and absolute reference. -/
theorem image_jpg_gets_jpeg_extension_witness :
    (downloadImage (fun _ => FetchResult.success "image/jpg") "http://e/p"
        (⟨[], [], []⟩ : ResolveState) "http://e/i.jpg").2
      = RefResult.rewritten
          (sanitize (urljoin "http://e/p" "http://e/i.jpg") ++ ".jpeg") ∧
    (downloadImage (fun _ => FetchResult.success "image/jpg") "http://e/p"
        (⟨[], [], []⟩ : ResolveState) "http://e/i.jpg").1.images
      = ([] : List Image)
          ++ [⟨sanitize (urljoin "http://e/p" "http://e/i.jpg") ++ ".jpeg",
               "image/jpg"⟩] ∧
    (downloadImage (fun _ => FetchResult.success "image/jpg") "http://e/p"
        (⟨[], [], []⟩ : ResolveState) "http://e/i.jpg").2
      = (downloadImage (fun _ => FetchResult.success "image/jpeg") "http://e/p"
          (⟨[], [], []⟩ : ResolveState) "http://e/i.jpg").2 :=
  image_jpg_gets_jpeg_extension "http://e/p" "http://e/i.jpg" ⟨[], [], []⟩
    (by decide)

/-- C6: the normalized title is never empty and resolves by extractor
title, then bookmark description, then the domain followed by the word
article; the description resolves by bookmark note, then extractor dek,
then extractor excerpt, then empty. Missing fields are the empty string,
matching the truthiness tests in the source. -/
theorem title_and_description_fallback_chains
    (rt d dom n dek ex : String) :
    zineArticleTitle rt d dom ≠ "" ∧
    (rt ≠ "" → zineArticleTitle rt d dom = rt) ∧
    (rt = "" → d ≠ "" → zineArticleTitle rt d dom = d) ∧
    (rt = "" → d = "" → zineArticleTitle rt d dom = dom ++ " article") ∧
    (n ≠ "" → zineArticleDescription n dek ex = n) ∧
    (n = "" → dek ≠ "" → zineArticleDescription n dek ex = dek) ∧
    (n = "" → dek = "" → ex ≠ "" → zineArticleDescription n dek ex = ex) ∧
    (n = "" → dek = "" → ex = "" → zineArticleDescription n dek ex = "") := by
  refine ⟨?_, ?_, ?_, ?_, ?_, ?_, ?_, ?_⟩
  · simp only [zineArticleTitle]
    split
    · exact append_article_ne_empty dom
    · assumption
  · intro h; simp [zineArticleTitle, pyOr, h]
  · intro h1 h2; simp [zineArticleTitle, pyOr, h1, h2]
  · intro h1 h2; simp [zineArticleTitle, pyOr, h1, h2]
  · intro h; simp [zineArticleDescription, pyOr, h]
  · intro h1 h2; simp [zineArticleDescription, pyOr, h1, h2]
  · intro h1 h2 h3; simp [zineArticleDescription, pyOr, h1, h2, h3]
  · intro h1 h2 h3; simp [zineArticleDescription, pyOr, h1, h2, h3]

/-- Witness for the fallback-chain theorem: with an empty extractor title
and bookmark description Foo the title resolves to Foo, and with
everything empty it resolves to the domain followed by the word
article. -/
theorem title_and_description_fallback_chains_witness :
    zineArticleTitle "" "Foo" "example.com" = "Foo" ∧
    zineArticleTitle "" "" "example.com" = "example.com" ++ " article" ∧
    zineArticleDescription "" "the dek" "the excerpt" = "the dek" :=
  ⟨(title_and_description_fallback_chains "" "Foo" "example.com" "" "" "").2.2.1
      rfl (by decide),
   (title_and_description_fallback_chains "" "" "example.com" "" "" "").2.2.2.1
      rfl rfl,
   (title_and_description_fallback_chains "" "" "" "" "the dek"
      "the excerpt").2.2.2.2.2.1 rfl (by decide)⟩

/-- C3 counterexample: the claim states the Manifest Builder is a pure
function of the articles, the periodicalId and the title. The package
manifest, however, embeds datetime.utcnow() in its dc:date element
(modeled as the explicit now argument), so two calls with identical
articles, uid and title but different clock readings produce different
manifest documents. -/
theorem opf_differs_across_timestamps :
    content_opf_for_articles [] "uid" "Pinboard Unread" "2020-01-01T00:00:00"
      ≠ content_opf_for_articles [] "uid" "Pinboard Unread"
          "2020-01-01T00:00:01" := by
  intro h
  exact absurd (congrArg opfDateText h) (by decide)

/-- C3 amended: with the wall clock made explicit, the package manifest
differs across two calls with the same articles, uid and title at most in
the text of its dc:date element, which carries exactly the clock reading;
the navigation and table-of-contents builders take no clock at all, so
their outputs are fully determined by the articles, uid and title. -/
theorem opf_deterministic_up_to_date (a : List Article)
    (uid title n1 n2 : String) :
    eraseDate (content_opf_for_articles a uid title n1)
      = eraseDate (content_opf_for_articles a uid title n2) ∧
    opfDateText (content_opf_for_articles a uid title n1) = n1 := by
  exact ⟨rfl, rfl⟩

/-- C7: a per-bookmark failure (fetch or extraction error, modeled by the
article oracle returning none, or a caller-requested skip) never aborts
the run: the loop is total and the saved articles are exactly those of the
non-skipped, successfully fetched bookmarks, with their source URLs in the
bookmarks' oldest-first relative order. In particular, with five bookmarks
and a failure on the second, the included articles come from the first,
third, fourth and fifth bookmarks in that order. -/
theorem included_articles_preserve_bookmark_order :
    (∀ (fa : String → Option Readable) (ifetch : String → FetchResult)
        (skip : List String) (bs : List Bookmark),
      (zineLoop fa ifetch skip bs).map Article.url
        = (bs.filter (fun b => !(skip.contains b.u) && (fa b.u).isSome)).map
            Bookmark.u) ∧
    (zineLoop
        (fun u => if u = "u2" then none
                  else some ⟨"T", "A", "example.com", "", "", []⟩)
        (fun _ => FetchResult.failure) []
        [⟨"u1", "", ""⟩, ⟨"u2", "", ""⟩, ⟨"u3", "", ""⟩, ⟨"u4", "", ""⟩,
         ⟨"u5", "", ""⟩]).map Article.url
      = ["u1", "u3", "u4", "u5"] := by
  constructor
  · intro fa ifetch skip bs
    induction bs with
    | nil => rfl
    | cons b rest ih =>
      by_cases hc : b.u ∈ skip
      · simp [zineLoop, hc, ih, List.filter_cons]
      · cases hf : fa b.u with
        | none => simp [zineLoop, hc, hf, ih, List.filter_cons]
        | some r =>
          simp [zineLoop, hc, hf, ih, processBookmark, List.filter_cons]
  · decide

/-- The seen-filename set produced by the image item loop contains exactly
the incoming seen filenames and the filenames of the processed images. -/
theorem opfImageItems_fst_mem (f : String) :
    ∀ (imgs : List Image) (seen : List String),
      f ∈ (opfImageItems seen imgs).1
        ↔ f ∈ seen ∨ f ∈ imageNames imgs := by
  intro imgs
  induction imgs with
  | nil => intro seen; simp [opfImageItems, imageNames]
  | cons i rest ih =>
    intro seen
    by_cases hs : i.filename ∈ seen
    · have hstep : (opfImageItems seen (i :: rest)).1
          = (opfImageItems seen rest).1 := by
        simp [opfImageItems, hs]
      rw [hstep, ih seen]
      simp only [imageNames, List.mem_cons]
      constructor
      · rintro (h | h)
        · exact Or.inl h
        · exact Or.inr (Or.inr h)
      · rintro (h | h | h)
        · exact Or.inl h
        · exact Or.inl (h ▸ hs)
        · exact Or.inr h
    · have hstep : (opfImageItems seen (i :: rest)).1
          = (opfImageItems (seen ++ [i.filename]) rest).1 := by
        simp [opfImageItems, hs]
      rw [hstep, ih (seen ++ [i.filename])]
      simp only [imageNames, List.mem_cons, List.mem_append,
        List.mem_singleton]
      tauto

/-- The image items emitted for one article's image list: for a filename
already seen there is no item with that href; otherwise exactly one when
some image of the list carries that filename, and none otherwise. -/
theorem opfImageItems_countP (f : String) :
    ∀ (imgs : List Image) (seen : List String),
      (opfImageItems seen imgs).2.countP (fun x => x.attrD "href" == f)
        = if f ∈ seen then 0
          else if f ∈ imageNames imgs then 1 else 0 := by
  intro imgs
  induction imgs with
  | nil => intro seen; simp [opfImageItems, imageNames]
  | cons i rest ih =>
    intro seen
    by_cases hs : i.filename ∈ seen
    · have hstep : (opfImageItems seen (i :: rest)).2
          = (opfImageItems seen rest).2 := by
        simp [opfImageItems, hs]
      rw [hstep, ih seen]
      by_cases hf : f ∈ seen
      · simp [hf]
      · have hne : f ≠ i.filename := fun h => hf (h ▸ hs)
        simp [hf, imageNames, hne]
    · have hstep : (opfImageItems seen (i :: rest)).2
          = imageItemNode i :: (opfImageItems (seen ++ [i.filename]) rest).2 := by
        simp [opfImageItems, hs]
      rw [hstep, List.countP_cons, ih (seen ++ [i.filename])]
      have hhref : ((imageItemNode i).attrD "href" == f) = (i.filename == f) :=
        rfl
      by_cases hf : f = i.filename
      · have hr : (imageItemNode i).attrD "href" = i.filename := rfl
        have h1 : f ∈ seen ++ [i.filename] := by simp [hf]
        have h2 : f ∉ seen := fun h => hs (hf ▸ h)
        simp [hr, hf, h1, h2, hs, imageNames]
      · have hbe : (i.filename == f) = false := by
          simp [beq_iff_eq]
          exact fun h => hf h.symm
        have hmem : f ∈ seen ++ [i.filename] ↔ f ∈ seen := by
          simp [List.mem_append, hf]
        rw [hhref, hbe]
        by_cases hfs : f ∈ seen
        · simp [hmem, hfs]
        · simp [hmem, hfs, imageNames, hf]

/-- The seen-filename set after the whole article loop contains exactly
the incoming seen filenames and every image filename of the articles. -/
theorem opfArticleNodes_fst_mem (f : String) :
    ∀ (arts : List Article) (seen : List String),
      f ∈ (opfArticleNodes seen arts).1
        ↔ f ∈ seen ∨ f ∈ articleImageNames arts := by
  intro arts
  induction arts with
  | nil => intro seen; simp [opfArticleNodes, articleImageNames]
  | cons a rest ih =>
    intro seen
    have hstep : (opfArticleNodes seen (a :: rest)).1
        = (opfArticleNodes (opfImageItems seen a.images).1 rest).1 := rfl
    rw [hstep, ih, opfImageItems_fst_mem]
    simp only [articleImageNames, List.mem_append]
    tauto

/-- Across the whole article loop, a filename that is no article's
document filename appears as the href of exactly one emitted manifest item
when it is some article's image filename and was not already seen, and of
none otherwise. -/
theorem opfArticleNodes_countP (f : String) :
    ∀ (arts : List Article) (seen : List String),
      (∀ a ∈ arts, a.filename ≠ f) →
      (opfArticleNodes seen arts).2.1.countP (fun x => x.attrD "href" == f)
        = if f ∈ seen then 0
          else if f ∈ articleImageNames arts then 1 else 0 := by
  intro arts
  induction arts with
  | nil => intro seen _; simp [opfArticleNodes, articleImageNames]
  | cons a rest ih =>
    intro seen hart
    have hstep : (opfArticleNodes seen (a :: rest)).2.1
        = articleItemNode a
          :: ((opfImageItems seen a.images).2
              ++ (opfArticleNodes (opfImageItems seen a.images).1 rest).2.1) :=
      rfl
    have hhref : ((articleItemNode a).attrD "href" == f) = (a.filename == f) :=
      rfl
    have hbe : (a.filename == f) = false := by
      simp [beq_iff_eq]
      exact hart a (List.mem_cons_self a rest)
    rw [hstep, List.countP_cons, List.countP_append, hhref, hbe,
      opfImageItems_countP,
      ih _ (fun x hx => hart x (List.mem_cons_of_mem a hx))]
    by_cases h1 : f ∈ seen
    · have h1m : f ∈ (opfImageItems seen a.images).1 :=
        (opfImageItems_fst_mem f a.images seen).mpr (Or.inl h1)
      simp [h1, h1m]
    · by_cases h2 : f ∈ imageNames a.images
      · have h2m : f ∈ (opfImageItems seen a.images).1 :=
          (opfImageItems_fst_mem f a.images seen).mpr (Or.inr h2)
        simp [h1, h2, h2m, articleImageNames]
      · have h2m : f ∉ (opfImageItems seen a.images).1 := fun h => by
          rcases (opfImageItems_fst_mem f a.images seen).mp h with h' | h'
          · exact h1 h'
          · exact h2 h'
        simp [h1, h2, h2m, articleImageNames]

/-- The spine itemrefs emitted by the article loop carry the article
filenames in input order. -/
theorem opfArticleNodes_spine :
    ∀ (arts : List Article) (seen : List String),
      (opfArticleNodes seen arts).2.2.1.map (fun x => x.attrD "idref")
        = arts.map Article.filename := by
  intro arts
  induction arts with
  | nil => intro seen; rfl
  | cons a rest ih =>
    intro seen
    have hstep : (opfArticleNodes seen (a :: rest)).2.2.1
        = spineItemNode a
          :: (opfArticleNodes (opfImageItems seen a.images).1 rest).2.2.1 :=
      rfl
    rw [hstep, List.map_cons, ih, List.map_cons]
    rfl

/-- The manifest element of the package document: the template's ncx and
contents items followed by the article loop's items. -/
theorem opf_manifest_children (articles : List Article)
    (uid title now : String) :
    ((content_opf_for_articles articles uid title now).child 1).children
      = XmlNode.elem "item"
          [("href", "contents.ncx"), ("id", "ncx"),
           ("media-type", "application/x-dtbncx+xml")] "" []
        :: XmlNode.elem "item"
          [("href", "contents.html"), ("media-type", "application/xhtml+xml"),
           ("id", "contents")] "" []
        :: (opfArticleNodes [] articles).2.1 := rfl

/-- The spine element of the package document holds exactly the article
loop's itemrefs. -/
theorem opf_spine_children (articles : List Article) (uid title now : String) :
    ((content_opf_for_articles articles uid title now).child 2).children
      = (opfArticleNodes [] articles).2.2.1 := rfl

/-- C8: in the package manifest, a filename f that is not an article
document filename and not one of the two template hrefs appears as an item
href exactly once when f is the filename of some article's image (however
many articles reference it) and never otherwise; and the spine lists the
article documents in input order. -/
theorem manifest_image_dedup_and_spine_order (articles : List Article)
    (uid title now f : String)
    (hart : ∀ a ∈ articles, a.filename ≠ f)
    (hncx : f ≠ "contents.ncx") (hhtml : f ≠ "contents.html") :
    ((content_opf_for_articles articles uid title now).child 2).children.map
        (fun x => x.attrD "idref") = articles.map Article.filename ∧
    ((content_opf_for_articles articles uid title now).child 1).children.countP
        (fun x => x.attrD "href" == f)
      = if f ∈ articleImageNames articles then 1 else 0 := by
  constructor
  · rw [opf_spine_children]
    exact opfArticleNodes_spine articles []
  · rw [opf_manifest_children]
    have h1 : (("contents.ncx" : String) == f) = false := by
      simp [beq_iff_eq]
      exact fun h => hncx h.symm
    have h2 : (("contents.html" : String) == f) = false := by
      simp [beq_iff_eq]
      exact fun h => hhtml h.symm
    rw [List.countP_cons, List.countP_cons,
      opfArticleNodes_countP f articles [] hart]
    have hx1 : ((XmlNode.elem "item"
        [("href", "contents.ncx"), ("id", "ncx"),
         ("media-type", "application/x-dtbncx+xml")] "" []).attrD "href" == f)
        = (("contents.ncx" : String) == f) := rfl
    have hx2 : ((XmlNode.elem "item"
        [("href", "contents.html"), ("media-type", "application/xhtml+xml"),
         ("id", "contents")] "" []).attrD "href" == f)
        = (("contents.html" : String) == f) := rfl
    rw [hx1, hx2, h1, h2]
    simp

/-- Witness for the manifest dedup theorem: two articles referencing the
image img.jpeg yield exactly one manifest item for it, and the spine lists
the two article documents in order. -/
theorem manifest_image_dedup_and_spine_order_witness :
    (((content_opf_for_articles
        [⟨"u1", "T1", "", "", "a1.html", [⟨"img.jpeg", "image/jpeg"⟩]⟩,
         ⟨"u2", "T2", "", "", "a2.html", [⟨"img.jpeg", "image/jpeg"⟩]⟩]
        "uid" "ttl" "now").child 2).children.map
          (fun x => x.attrD "idref")
        = List.map Article.filename
            [⟨"u1", "T1", "", "", "a1.html", [⟨"img.jpeg", "image/jpeg"⟩]⟩,
             ⟨"u2", "T2", "", "", "a2.html", [⟨"img.jpeg", "image/jpeg"⟩]⟩]) ∧
    ((content_opf_for_articles
        [⟨"u1", "T1", "", "", "a1.html", [⟨"img.jpeg", "image/jpeg"⟩]⟩,
         ⟨"u2", "T2", "", "", "a2.html", [⟨"img.jpeg", "image/jpeg"⟩]⟩]
        "uid" "ttl" "now").child 1).children.countP
        (fun x => x.attrD "href" == "img.jpeg")
      = if "img.jpeg" ∈ articleImageNames
            [⟨"u1", "T1", "", "", "a1.html", [⟨"img.jpeg", "image/jpeg"⟩]⟩,
             ⟨"u2", "T2", "", "", "a2.html", [⟨"img.jpeg", "image/jpeg"⟩]⟩]
        then 1 else 0 :=
  manifest_image_dedup_and_spine_order
    [⟨"u1", "T1", "", "", "a1.html", [⟨"img.jpeg", "image/jpeg"⟩]⟩,
     ⟨"u2", "T2", "", "", "a2.html", [⟨"img.jpeg", "image/jpeg"⟩]⟩]
    "uid" "ttl" "now" "img.jpeg" (by decide) (by decide) (by decide)

/-- The navigation map's article entry list has one entry per article. -/
theorem articleNavPoints_length :
    ∀ (l : List Article) (k : Nat), (articleNavPoints k l).length = l.length := by
  intro l
  induction l with
  | nil => intro k; rfl
  | cons a rest ih =>
    intro k
    simp [articleNavPoints, ih]

/-- The i-th article entry of the navigation map, at starting play order
k, is the entry for the i-th article at play order k plus i. -/
theorem articleNavPoints_getD :
    ∀ (l : List Article) (k i : Nat) (h : i < l.length),
      (articleNavPoints k l).getD i default
        = articleNavPoint (k + i) (l.get ⟨i, h⟩) := by
  intro l
  induction l with
  | nil => intro k i h; exact absurd h (Nat.not_lt_zero i)
  | cons a rest ih =>
    intro k i h
    cases i with
    | zero => rfl
    | succ j =>
      have hj : j < rest.length := Nat.lt_of_succ_lt_succ h
      have hstep : (articleNavPoints k (a :: rest)).getD (j + 1) default
          = (articleNavPoints (k + 1) rest).getD j default := rfl
      rw [hstep, ih (k + 1) j hj, show k + 1 + j = k + (j + 1) from by omega]
      rfl

/-- An article navPoint whose play order is not 3 targets the article's
document without an anchor. -/
theorem navContentSrc_articleNavPoint (order : Nat) (art : Article)
    (hne : order ≠ 3) :
    navContentSrc (articleNavPoint order art) = art.filename := by
  have hred : navContentSrc (articleNavPoint order art)
      = (if order = 3 then art.filename ++ "#top" else art.filename) := rfl
  rw [hred, if_neg hne]

/-- C4 counterexample: the claim says the play-order-1 entry's content
target is the generated table-of-contents document (contents.html) and not
any article document. On the code, contents_ncx_for_articles passes the
first article's filename as the order-1 target, so for a one-article list
the order-1 entry targets that article's document. -/
theorem nav_order1_targets_first_article_not_toc :
    (contents_ncx_for_articles
        [⟨"http://e/x", "T", "", "", "first.html", []⟩] "uid" "ttl").map
        (fun doc => navContentSrc (ncxOrder1 doc)) = some "first.html" ∧
    ("first.html" : String) ≠ "contents.html" ∧
    "first.html" = (⟨"http://e/x", "T", "", "", "first.html", []⟩
        : Article).filename := by
  decide

/-- C4 amended: for a non-empty article list, the order-1 entry is labeled
Table of Contents with class periodical but targets the first article's
document (not the generated TOC document); the order-2 Unread section
entry, nested under it, targets the first article's document at its top
anchor; and the entries from order 3 on are one per article in input
order, carrying the article's title, with the order-3 (first) entry
targeting its article's top anchor and the later ones the bare document. -/
theorem nav_structure_amended (first : Article) (rest : List Article)
    (uid title : String) (doc : XmlNode)
    (hdoc : contents_ncx_for_articles (first :: rest) uid title = some doc) :
    (navLabelText (ncxOrder1 doc) = "Table of Contents" ∧
     (ncxOrder1 doc).attrD "playOrder" = "1" ∧
     (ncxOrder1 doc).attrD "class" = "periodical" ∧
     navContentSrc (ncxOrder1 doc) = first.filename) ∧
    (navLabelText (ncxOrder2 doc) = "Unread" ∧
     (ncxOrder2 doc).attrD "playOrder" = "2" ∧
     (ncxOrder2 doc).attrD "class" = "section" ∧
     navContentSrc (ncxOrder2 doc) = first.filename ++ "#top") ∧
    (ncxOrder2 doc).children.length = (first :: rest).length + 2 ∧
    ∀ i, (h : i < (first :: rest).length) →
      ((ncxOrder2 doc).child (i + 2)).attrD "playOrder" = toString (i + 3) ∧
      ((ncxOrder2 doc).child (i + 2)).attrD "class" = "article" ∧
      navLabelText ((ncxOrder2 doc).child (i + 2))
        = ((first :: rest).get ⟨i, h⟩).title ∧
      navContentSrc ((ncxOrder2 doc).child (i + 2))
        = ((first :: rest).get ⟨i, h⟩).filename
          ++ (if i = 0 then "#top" else "") := by
  have hd := Option.some.inj hdoc
  subst hd
  refine ⟨⟨rfl, rfl, rfl, rfl⟩, ⟨rfl, rfl, rfl, rfl⟩, ?_, ?_⟩
  · show (articleNavPoints 3 (first :: rest)).length + 2
        = (first :: rest).length + 2
    rw [articleNavPoints_length]
  · intro i h
    refine ⟨?_, ?_, ?_, ?_⟩
    · show ((articleNavPoints 3 (first :: rest)).getD i default).attrD
        "playOrder" = toString (i + 3)
      rw [articleNavPoints_getD (first :: rest) 3 i h, Nat.add_comm 3 i]
      rfl
    · show ((articleNavPoints 3 (first :: rest)).getD i default).attrD
        "class" = "article"
      rw [articleNavPoints_getD (first :: rest) 3 i h]
      rfl
    · show navLabelText ((articleNavPoints 3 (first :: rest)).getD i default)
        = ((first :: rest).get ⟨i, h⟩).title
      rw [articleNavPoints_getD (first :: rest) 3 i h]
      rfl
    · show navContentSrc ((articleNavPoints 3 (first :: rest)).getD i default)
        = ((first :: rest).get ⟨i, h⟩).filename ++ (if i = 0 then "#top" else "")
      rw [articleNavPoints_getD (first :: rest) 3 i h]
      cases i with
      | zero => rfl
      | succ j =>
        rw [navContentSrc_articleNavPoint (3 + (j + 1))
          ((first :: rest).get ⟨j + 1, h⟩) (by omega)]
        simp

/-- Witness for the amended navigation-structure theorem at a concrete
one-article list. -/
theorem nav_structure_amended_witness :
    navLabelText (ncxOrder1 ((contents_ncx_for_articles
        [⟨"u", "T", "D", "A", "first.html", []⟩] "uid" "ttl").getD default))
      = "Table of Contents" ∧
    navContentSrc ((ncxOrder2 ((contents_ncx_for_articles
        [⟨"u", "T", "D", "A", "first.html", []⟩] "uid" "ttl").getD
          default)).child 2)
      = "first.html#top" := by
  have h := nav_structure_amended ⟨"u", "T", "D", "A", "first.html", []⟩ []
      "uid" "ttl"
      ((contents_ncx_for_articles [⟨"u", "T", "D", "A", "first.html", []⟩]
        "uid" "ttl").getD default) rfl
  refine ⟨h.1.1, ?_⟩
  exact ((h.2.2.2 0 (by decide)).2.2.2).trans (by decide)

end Pinboardzine
